import Mathlib

/-!
# Verification of docker-autoproxy's reconciliation loop

A shallow embedding, in Lean 4, of the Go program `autoproxy.go` from
rehabstudio/docker-autoproxy.  The repository carries two revisions of the
same file; the later (logrus) revision is the one embedded here, since it is
the one the design document describes (the earlier revision differs only in
logging and in `writeNewConfigFile`'s handling of a template-render error).

Modelling conventions:

* One nginx directory (`/etc/nginx/conf.d` or `/etc/nginx/htpasswd.d`) is a
  `Dir`: an association list from file name to file content.  `path.Join(d,
  name)` in the Go code keys the file inside that directory, so in the model
  a file is addressed by its name within its `Dir` value.
* Fallible OS calls (ReadFile, WriteFile, Remove, MkdirAll, ReadDir) are
  given oracles saying whether the call succeeds; the Go functions' `(bool,
  error)` returns become `Bool × Dir × Option Err` — the returned flag, the
  directory afterwards, and the error if any.  `os.Stat` on a file is
  modelled by lookup: it succeeds exactly when the file exists.
* Template parsing/rendering (`template.ParseFiles` / `Execute`) is a
  parameter: a `parseOk` flag and a render function `containerConfig →
  Option String` (`none` = Execute reported an error).
* The docker client is a record of the results of `ListContainers` and
  `InspectContainer`; JSON decoding of `HTPASSWD` is an oracle
  `String → Option (List String)` (`none` = `json.Unmarshal` error, which
  leaves the entries slice empty).
-/

abbrev Err := String

/-- One on-disk directory: file name ↦ file content. -/
abbrev Dir := List (String × String)

/-- `os.Stat`/`ioutil.ReadFile` view of a directory: the content stored under
a file name, if the file exists. -/
def Dir.get (d : Dir) (n : String) : Option String :=
  (d.find? (fun p => p.1 == n)).map (fun p => p.2)

/-- `ioutil.WriteFile`: create the file or replace its content (the file
ends up holding exactly `c`; every other file is untouched). -/
def Dir.set (d : Dir) (n c : String) : Dir :=
  (n, c) :: d.filter (fun p => p.1 != n)

/-- `os.Remove`: delete the file with the given name. -/
def Dir.removeFile (d : Dir) (n : String) : Dir :=
  d.filter (fun p => p.1 != n)

/-- `containerConfig` from autoproxy.go: context data for rendering
templates. -/
structure ContainerConfig where
  Name            : String
  VHost           : String
  ContainerIP     : String
  ContainerPort   : String
  SSLCertName     : String
  HtpasswdEntries : List String
deriving DecidableEq, Repr

/-- `cfWriter`: the function type used for writing nginx configuration or
htpasswd files; result is (returned bool, directory afterwards, error). -/
abbrev CfWriter := Dir → ContainerConfig → Bool × Dir × Option Err

/-- `writeIfChanged`: write `content` at `path` if the file does not exist or
holds different bytes.  `readOk`/`writeOk` are the oracles for
`ioutil.ReadFile` and `ioutil.WriteFile`.  Note the Go code returns `true`
together with WriteFile's error when the write itself fails. -/
def writeIfChanged (readOk writeOk : String → Bool) (d : Dir)
    (path content : String) : Bool × Dir × Option Err :=
  match d.get path with
  | some readContent =>
      if readOk path then
        if content == readContent then
          (false, d, none)
        else if writeOk path then
          (true, d.set path content, none)
        else
          (true, d, some "write failed")
      else
        (false, d, some "read failed")
  | none =>
      if writeOk path then (true, d.set path content, none)
      else (true, d, some "write failed")

/-- `writeNewConfigFile`: render the nginx template for the container and
write the result if changed.  `parseOk` models `template.ParseFiles`
succeeding; `render cc = none` models `nginxTemplate.Execute` reporting an
error, which the code logs and turns into `(false, nil)`. -/
def writeNewConfigFile (parseOk : Bool) (render : ContainerConfig → Option String)
    (readOk writeOk : String → Bool) (d : Dir) (cc : ContainerConfig) :
    Bool × Dir × Option Err :=
  if !parseOk then
    (false, d, some "template parse failed")
  else
    match render cc with
    | none => (false, d, none)
    | some b => writeIfChanged readOk writeOk d cc.Name b

/-- `writeNewHtpasswdFile`: write the newline-joined htpasswd entries if there
are any; otherwise do nothing. -/
def writeNewHtpasswdFile (readOk writeOk : String → Bool) (d : Dir)
    (cc : ContainerConfig) : Bool × Dir × Option Err :=
  if cc.HtpasswdEntries.length == 0 then
    (false, d, none)
  else
    writeIfChanged readOk writeOk d cc.Name
      (String.intercalate "\n" cc.HtpasswdEntries)

/-- The loop body of `writeNewFiles`: call the writer on every container,
aborting with `(false, err)` on the first error, OR-ing the flags
otherwise. -/
def writeNewFilesLoop (f : CfWriter) : List ContainerConfig → Dir → Bool →
    Bool × Dir × Option Err
  | [], d, acc => (acc, d, none)
  | cc :: rest, d, acc =>
      match f d cc with
      | (_, d', some e) => (false, d', some e)
      | (w, d', none) => writeNewFilesLoop f rest d' (acc || w)

/-- `writeNewFiles`: ensure the directory exists (`mkdirOk` models
`os.MkdirAll`), then write one file per container. -/
def writeNewFiles (mkdirOk : Bool) (f : CfWriter) (d : Dir)
    (ccs : List ContainerConfig) : Bool × Dir × Option Err :=
  if mkdirOk then writeNewFilesLoop f ccs d false
  else (false, d, some "mkdir failed")

/-- `removeIfRedundant`: keep the file if its name matches some running
container, otherwise delete it (`removeOk` models `os.Remove`; the Go code
returns `true` together with Remove's error). -/
def removeIfRedundant (removeOk : String → Bool) (d : Dir) (fname : String)
    (rcs : List ContainerConfig) : Bool × Dir × Option Err :=
  if rcs.any (fun rc => fname == rc.Name) then
    (false, d, none)
  else if removeOk fname then
    (true, d.removeFile fname, none)
  else
    (true, d, some "remove failed")

/-- The loop body of `removeOldFiles`: walk the directory listing taken at
the start, deleting unmatched files, aborting with `(false, err)` on the
first error. -/
def removeOldFilesLoop (removeOk : String → Bool) (ccs : List ContainerConfig) :
    List (String × String) → Dir → Bool → Bool × Dir × Option Err
  | [], d, acc => (acc, d, none)
  | f :: rest, d, acc =>
      match removeIfRedundant removeOk d f.1 ccs with
      | (_, d', some e) => (false, d', some e)
      | (r, d', none) => removeOldFilesLoop removeOk ccs rest d' (acc || r)

/-- `removeOldFiles`: list the directory (`readDirOk` models
`ioutil.ReadDir`), then delete every file whose name matches no running
container. -/
def removeOldFiles (readDirOk : Bool) (removeOk : String → Bool) (d : Dir)
    (ccs : List ContainerConfig) : Bool × Dir × Option Err :=
  if readDirOk then removeOldFilesLoop removeOk ccs d d false
  else (false, d, some "readdir failed")

/-- Result of running the external reload command: its exit code and combined
stdout/stderr.  `CombinedOutput` returns an error exactly when the command
exits non-zero. -/
structure CmdResult where
  exitCode : Nat
  output   : String
deriving DecidableEq, Repr

/-- Chars `s` starts with chars `p` (the comparison `strings.Contains`
performs at each offset). -/
def charsStartWith : List Char → List Char → Bool
  | _, [] => true
  | [], _ :: _ => false
  | c :: s, p :: ps => c == p && charsStartWith s ps

/-- `strings.Contains`: `pat` occurs as a contiguous substring of `s`. -/
def goContains (s pat : String) : Bool :=
  go s.data pat.data
where
  go : List Char → List Char → Bool
    | [], pat => pat.isEmpty
    | c :: rest, pat => charsStartWith (c :: rest) pat || go rest pat

/-- `reloadNginxConfiguration`: run `nginx -s reload`; fail on a non-zero
exit code, and also when the combined output contains `"fail"`, because the
reload command is known to exit 0 even on failure. -/
def reloadNginxConfiguration (r : CmdResult) : Option Err :=
  if r.exitCode != 0 then
    some "exit error"
  else if goContains r.output "fail" then
    some "Failed to reload nginx"
  else
    none

/-- The two directories `configureAndReload` reconciles. -/
structure NginxState where
  configDir   : Dir
  htpasswdDir : Dir
deriving DecidableEq, Repr

/-- All the external-effect parameters of one reconciliation cycle. -/
structure CycleOracles where
  parseOk      : Bool
  render       : ContainerConfig → Option String
  cfgReadOk    : String → Bool
  cfgWriteOk   : String → Bool
  cfgMkdirOk   : Bool
  cfgReadDirOk : Bool
  cfgRemoveOk  : String → Bool
  htReadOk     : String → Bool
  htWriteOk    : String → Bool
  htMkdirOk    : Bool
  htReadDirOk  : Bool
  htRemoveOk   : String → Bool
  reloadResult : CmdResult

/-- The configuration-file writer with its oracles applied. -/
def cfgWriter (o : CycleOracles) : CfWriter :=
  writeNewConfigFile o.parseOk o.render o.cfgReadOk o.cfgWriteOk

/-- The htpasswd-file writer with its oracles applied. -/
def htWriter (o : CycleOracles) : CfWriter :=
  writeNewHtpasswdFile o.htReadOk o.htWriteOk

/-- `configureAndReload`: write config files, write htpasswd files, remove
stale config files, remove stale htpasswd files — tracking `reloadRequired` —
then reload nginx iff anything changed.  Besides the final state and error,
the middle component records whether the reload branch was taken. -/
def configureAndReload (o : CycleOracles) (st : NginxState)
    (ccs : List ContainerConfig) : NginxState × Bool × Option Err :=
  match writeNewFiles o.cfgMkdirOk (cfgWriter o) st.configDir ccs with
  | (_, cd, some e) => (⟨cd, st.htpasswdDir⟩, false, some e)
  | (c1, cd, none) =>
    match writeNewFiles o.htMkdirOk (htWriter o) st.htpasswdDir ccs with
    | (_, hd, some e) => (⟨cd, hd⟩, false, some e)
    | (c2, hd, none) =>
      match removeOldFiles o.cfgReadDirOk o.cfgRemoveOk cd ccs with
      | (_, cd', some e) => (⟨cd', hd⟩, false, some e)
      | (c3, cd', none) =>
        match removeOldFiles o.htReadDirOk o.htRemoveOk hd ccs with
        | (_, hd', some e) => (⟨cd', hd'⟩, false, some e)
        | (c4, hd', none) =>
          let reloadRequired := c1 || c2 || c3 || c4
          if reloadRequired then
            (⟨cd', hd'⟩, true, reloadNginxConfiguration o.reloadResult)
          else
            (⟨cd', hd'⟩, false, none)

/-- `strings.TrimLeft(s, "/")`: drop every leading slash. -/
def trimLeftSlash (s : String) : String :=
  ⟨s.data.dropWhile (fun c => c == '/')⟩

/-- Split a character list at the first occurrence of `sep`; `none` when
`sep` does not occur. -/
def splitFirst (sep : Char) : List Char → Option (List Char × List Char)
  | [] => none
  | c :: rest =>
      if c == sep then some ([], rest)
      else
        match splitFirst sep rest with
        | none => none
        | some (k, v) => some (c :: k, v)

/-- `strings.SplitN(kv, "=", 2)` as used by `docker.Env.Map`: key before the
first `=`, value after it (empty when there is no `=`). -/
def envKV (kv : String) : String × String :=
  match splitFirst '=' kv.data with
  | none => (kv, "")
  | some (k, v) => (⟨k⟩, ⟨v⟩)

/-- `env.Map()[key]`: the mapping built from the `KEY=VALUE` strings, last
occurrence of a key winning; `none` when the key is absent. -/
def envMapGet (env : List String) (key : String) : Option String :=
  (env.filterMap (fun kv =>
    if (envKV kv).1 == key then some (envKV kv).2 else none)).getLast?

/-- `env.Get(key)`: map lookup with the zero value `""` for a missing key. -/
def envGet (env : List String) (key : String) : String :=
  (envMapGet env key).getD ""

/-- `docker.Port.Port()`: the part of a port key such as `"8080/tcp"` before
the slash. -/
def goPort (k : String) : String :=
  ⟨k.data.takeWhile (fun c => c != '/')⟩

/-- One element of the `ListContainers` reply: id and names. -/
structure ApiContainer where
  id    : String
  names : List String
deriving DecidableEq, Repr

/-- The parts of an `InspectContainer` reply the program reads:
`Config.Env`, the keys of `NetworkSettings.Ports`, and
`NetworkSettings.IPAddress`. -/
structure InspectedContainer where
  env       : List String
  ports     : List String
  ipAddress : String
deriving DecidableEq, Repr

/-- The docker API as the program sees it in one polling cycle: the result of
`ListContainers` and of `InspectContainer` per id. -/
structure DockerClient where
  listResult    : Except Err (List ApiContainer)
  inspectResult : String → Except Err InspectedContainer

/-- The `VIRTUAL_PORT` paragraph of `getExistingContainers`'s loop: the env
override if set; otherwise the single exposed port; `none` (skip) when the
container exposes more than one port, or none at all, without an
override. -/
def resolvePort (c : InspectedContainer) : Option String :=
  match envMapGet c.env "VIRTUAL_PORT" with
  | some p => some p
  | none =>
      if c.ports.length > 1 then none
      else if c.ports.length == 0 then none
      else
        -- `for k := range ports { vPort = k.Port() }` over the single key
        some (c.ports.foldl (fun _ k => goPort k) "")

/-- The two `os.Stat` checks of the SSL paragraph: clear the name when the
`.crt` file is missing, then — with the possibly already-cleared name — when
the `.key` file is missing; `sslFiles` is the set of existing paths. -/
def resolveSSL (sslFiles : List String) (sslCertName : String) : String :=
  let certPath := "/etc/nginx/ssl.d/" ++ sslCertName ++ ".crt"
  let ssl1 :=
    if sslCertName.length > 0 && !(sslFiles.contains certPath) then ""
    else sslCertName
  let keyPath := "/etc/nginx/ssl.d/" ++ ssl1 ++ ".key"
  if ssl1.length > 0 && !(sslFiles.contains keyPath) then ""
  else ssl1

/-- The per-container body of `getExistingContainers`'s loop: the exclusion
and resolution rules applied to one inspected container.  `sslFiles` is the
set of paths that exist under `/etc/nginx/ssl.d` (a path outside it stats as
absent); `jsonDecode` models `json.Unmarshal` into a string slice (`none` =
decode error, which leaves the entries empty).  Returns `none` when the
container is skipped. -/
def processContainer (sslFiles : List String)
    (jsonDecode : String → Option (List String))
    (name0 : String) (c : InspectedContainer) : Option ContainerConfig :=
  match envMapGet c.env "VIRTUAL_HOST" with
  | none => none
  | some vHost =>
    match resolvePort c with
    | none => none
    | some vPort =>
      let hval := envGet c.env "HTPASSWD"
      let htpasswdEntries :=
        if hval == "" then [] else (jsonDecode hval).getD []
      some
        { Name            := trimLeftSlash name0
          VHost           := vHost
          ContainerIP     := c.ipAddress
          ContainerPort   := vPort
          SSLCertName     := resolveSSL sslFiles (envGet c.env "SSL_CERT_NAME")
          HtpasswdEntries := htpasswdEntries }

/-- The head of `getExistingContainers`'s loop: `InspectContainer` on one
listed container — a failure is logged and skips it (`none`) — followed by
the exclusion/resolution rules of `processContainer`. -/
def inspectAndProcess (sslFiles : List String)
    (jsonDecode : String → Option (List String)) (client : DockerClient)
    (a : ApiContainer) : Option ContainerConfig :=
  match client.inspectResult a.id with
  | .error _ => none
  | .ok c => processContainer sslFiles jsonDecode (a.names.headD "") c

/-- `getExistingContainers`: list the active containers (an error here is the
call's error), then inspect each one — an inspection failure, or any
exclusion rule, skips that container and the loop continues. -/
def getExistingContainers (sslFiles : List String)
    (jsonDecode : String → Option (List String)) (client : DockerClient) :
    Except Err (List ContainerConfig) :=
  match client.listResult with
  | .error e => .error e
  | .ok apiContainers =>
      .ok <| apiContainers.foldl (fun containers a =>
        match inspectAndProcess sslFiles jsonDecode client a with
        | none => containers
        | some cc => containers ++ [cc]) []

/-! ## Basic directory lemmas -/

theorem find?_filter_ne (l : List (String × String)) (m n : String) (h : m ≠ n) :
    (l.filter (fun p => p.1 != n)).find? (fun p => p.1 == m) =
      l.find? (fun p => p.1 == m) := by
  induction l with
  | nil => rfl
  | cons p rest ih =>
      by_cases hpn : p.1 = n
      · have hnm : (n == m) = false := by
          simp
          exact fun he => h he.symm
        simp [List.filter_cons, List.find?_cons, hpn, hnm, ih]
      · by_cases hpm : p.1 = m
        · simp [List.filter_cons, List.find?_cons, hpn, hpm, h]
        · simp [List.filter_cons, List.find?_cons, hpn, hpm, ih]

theorem Dir.get_set_same (d : Dir) (n c : String) : (d.set n c).get n = some c := by
  simp [Dir.set, Dir.get, List.find?_cons]

theorem Dir.get_set_other (d : Dir) {m n : String} (h : m ≠ n) (c : String) :
    (d.set n c).get m = d.get m := by
  have hn : (n == m) = false := by
    simp
    exact fun hnm => h hnm.symm
  simp [Dir.set, Dir.get, List.find?_cons, hn, find?_filter_ne d m n h]

theorem Dir.get_removeFile_same (d : Dir) (n : String) :
    (d.removeFile n).get n = none := by
  have : (d.filter (fun p => p.1 != n)).find? (fun p => p.1 == n) = none := by
    rw [List.find?_eq_none]
    intro p hp
    have := List.of_mem_filter hp
    simp at this ⊢
    exact this
  simp [Dir.removeFile, Dir.get, this]

theorem Dir.get_removeFile_other (d : Dir) {m n : String} (h : m ≠ n) :
    (d.removeFile n).get m = d.get m := by
  simp [Dir.removeFile, Dir.get, find?_filter_ne d m n h]

theorem Dir.get_isSome_of_mem (d : Dir) (p : String × String) (h : p ∈ d) :
    (d.get p.1).isSome := by
  simp [Dir.get, Option.isSome_map]
  exact ⟨p.2, h⟩

/-! ## Claim C3: reload failure classification -/

/-- Claim C3: `reloadNginxConfiguration` returns success iff the reload
command exits with code zero and its combined output does not contain the
failure marker `"fail"`; in particular, an invocation exiting 0 whose output
contains the marker yields an error. -/
theorem reload_success_iff (r : CmdResult) :
    reloadNginxConfiguration r = none ↔
      r.exitCode = 0 ∧ goContains r.output "fail" = false := by
  by_cases h1 : r.exitCode = 0 <;>
    by_cases h2 : goContains r.output "fail" <;>
      simp [reloadNginxConfiguration, h1, h2]

/-! ## Claim C7: render-failure skip -/

/-- Claim C7: if rendering the configuration template for an endpoint fails,
`writeNewConfigFile` produces no artifact for it and returns without error
with `changed = false`: the directory is unchanged, so no file for that
endpoint's name is written or modified in that pass. -/
theorem render_failure_skip (render : ContainerConfig → Option String)
    (readOk writeOk : String → Bool) (d : Dir) (cc : ContainerConfig)
    (hrender : render cc = none) :
    writeNewConfigFile true render readOk writeOk d cc = (false, d, none) := by
  simp [writeNewConfigFile, hrender]

/-- Witness for `render_failure_skip` at a concrete endpoint and
directory. -/
theorem render_failure_skip_witness :
    writeNewConfigFile true (fun _ => none) (fun _ => true) (fun _ => true)
      [("web1", "old content")] ⟨"web1", "a.com", "10.0.0.2", "8080", "", []⟩ =
      (false, [("web1", "old content")], none) :=
  render_failure_skip (fun _ => none) (fun _ => true) (fun _ => true)
    [("web1", "old content")] ⟨"web1", "a.com", "10.0.0.2", "8080", "", []⟩ rfl

/-! ## Claim C5: port resolution policy -/

/-- Claim C5: for an inspected container with a `VIRTUAL_HOST`, an explicit
`VIRTUAL_PORT` value is used as the endpoint's port; otherwise a single
exposed port is used; and with zero or several exposed ports and no override
the container is excluded. -/
theorem port_resolution (sslFiles : List String)
    (jsonDecode : String → Option (List String)) (name0 : String)
    (c : InspectedContainer) (vh : String)
    (hvh : envMapGet c.env "VIRTUAL_HOST" = some vh) :
    (∀ p, envMapGet c.env "VIRTUAL_PORT" = some p →
        ∃ cc, processContainer sslFiles jsonDecode name0 c = some cc ∧
          cc.ContainerPort = p) ∧
    (envMapGet c.env "VIRTUAL_PORT" = none → ∀ k, c.ports = [k] →
        ∃ cc, processContainer sslFiles jsonDecode name0 c = some cc ∧
          cc.ContainerPort = goPort k) ∧
    (envMapGet c.env "VIRTUAL_PORT" = none → c.ports.length ≠ 1 →
        processContainer sslFiles jsonDecode name0 c = none) := by
  refine ⟨?_, ?_, ?_⟩
  · intro p hp
    have hrp : resolvePort c = some p := by simp [resolvePort, hp]
    simp only [processContainer, hvh, hrp]
    exact ⟨_, rfl, rfl⟩
  · intro hp k hk
    have hrp : resolvePort c = some (goPort k) := by
      simp [resolvePort, hp, hk]
    simp only [processContainer, hvh, hrp]
    exact ⟨_, rfl, rfl⟩
  · intro hp hlen
    have hrp : resolvePort c = none := by
      unfold resolvePort
      rw [hp]
      rcases Nat.lt_trichotomy c.ports.length 1 with h | h | h
      · have h0 : c.ports.length = 0 := by omega
        simp [h0]
      · exact absurd h hlen
      · simp [h, Nat.not_lt.mpr (Nat.le_of_lt h)]
    simp only [processContainer, hvh, hrp]

/-- Witness for `port_resolution`: a container with `VIRTUAL_HOST`, two
exposed ports and no `VIRTUAL_PORT` is excluded. -/
theorem port_resolution_witness :
    processContainer [] (fun _ => none) "/web2"
      ⟨["VIRTUAL_HOST=b.com"], ["8080/tcp", "9090/tcp"], "10.0.0.3"⟩ = none :=
  (port_resolution [] (fun _ => none) "/web2"
      ⟨["VIRTUAL_HOST=b.com"], ["8080/tcp", "9090/tcp"], "10.0.0.3"⟩ "b.com"
      (by decide)).2.2 (by decide) (by decide)

/-! ## Claim C6: SSL fallback -/

/-- The SSL paragraph clears a non-empty certificate name whenever the
certificate or the key file is absent. -/
theorem resolveSSL_cleared (sslFiles : List String) (n : String) (hn : n ≠ "")
    (habs : sslFiles.contains ("/etc/nginx/ssl.d/" ++ n ++ ".crt") = false ∨
      sslFiles.contains ("/etc/nginx/ssl.d/" ++ n ++ ".key") = false) :
    resolveSSL sslFiles n = "" := by
  have hlen : n.length > 0 := by
    apply Nat.pos_of_ne_zero
    intro h0
    apply hn
    cases he : n with
    | mk l => rw [he] at h0; simp [String.length] at h0; simp [h0]
  by_cases hcert : ("/etc/nginx/ssl.d/" ++ n ++ ".crt") ∈ sslFiles
  · have hkey : ("/etc/nginx/ssl.d/" ++ n ++ ".key") ∉ sslFiles := by
      rcases habs with h | h
      · simp at h
        exact absurd hcert h
      · simp at h
        exact h
    simp [resolveSSL, hcert, hkey, hlen]
  · simp [resolveSSL, hcert, hlen]

/-- Claim C6: a container with a `VIRTUAL_HOST`, a resolvable port and a
non-empty `SSL_CERT_NAME` whose certificate or key file is missing from
`/etc/nginx/ssl.d` still yields an endpoint — with `SSLCertName` cleared —
rather than a cycle failure. -/
theorem ssl_fallback (sslFiles : List String)
    (jsonDecode : String → Option (List String)) (name0 : String)
    (c : InspectedContainer) (vh p : String)
    (hvh : envMapGet c.env "VIRTUAL_HOST" = some vh)
    (hport : resolvePort c = some p)
    (hn : envGet c.env "SSL_CERT_NAME" ≠ "")
    (habs : sslFiles.contains
        ("/etc/nginx/ssl.d/" ++ envGet c.env "SSL_CERT_NAME" ++ ".crt") = false ∨
      sslFiles.contains
        ("/etc/nginx/ssl.d/" ++ envGet c.env "SSL_CERT_NAME" ++ ".key") = false) :
    ∃ cc, processContainer sslFiles jsonDecode name0 c = some cc ∧
      cc.SSLCertName = "" := by
  simp only [processContainer, hvh, hport]
  exact ⟨_, rfl, resolveSSL_cleared sslFiles _ hn habs⟩

/-- Witness for `ssl_fallback`: `SSL_CERT_NAME=foo` with `foo.crt` present
but `foo.key` missing yields an endpoint with SSL disabled. -/
theorem ssl_fallback_witness :
    ∃ cc, processContainer ["/etc/nginx/ssl.d/foo.crt"] (fun _ => none) "/web3"
      ⟨["VIRTUAL_HOST=a.com", "VIRTUAL_PORT=8080", "SSL_CERT_NAME=foo"], [],
        "10.0.0.4"⟩ = some cc ∧ cc.SSLCertName = "" :=
  ssl_fallback ["/etc/nginx/ssl.d/foo.crt"] (fun _ => none) "/web3"
    ⟨["VIRTUAL_HOST=a.com", "VIRTUAL_PORT=8080", "SSL_CERT_NAME=foo"], [],
      "10.0.0.4"⟩ "a.com" "8080" (by decide) (by decide) (by decide)
    (Or.inr (by decide))

/-! ## Claim C8: inventory error containment -/

theorem gec_loop_eq_filterMap (g : ApiContainer → Option ContainerConfig)
    (l : List ApiContainer) (acc : List ContainerConfig) :
    l.foldl (fun containers a =>
        match g a with
        | none => containers
        | some cc => containers ++ [cc]) acc = acc ++ l.filterMap g := by
  induction l generalizing acc with
  | nil => simp
  | cons a rest ih =>
      cases hg : g a with
      | none => simp [List.foldl_cons, List.filterMap_cons, hg, ih]
      | some cc => simp [List.foldl_cons, List.filterMap_cons, hg, ih]

/-- Claim C8: `getExistingContainers` returns an error exactly when the
top-level list-containers call fails; when the list call succeeds, the result
is the containers surviving inspection and the exclusion rules, in order —
a per-container inspection failure only drops that container. -/
theorem inventory_error_containment (sslFiles : List String)
    (jsonDecode : String → Option (List String)) (client : DockerClient) :
    (∀ e, getExistingContainers sslFiles jsonDecode client = .error e ↔
        client.listResult = .error e) ∧
    (∀ l, client.listResult = .ok l →
        getExistingContainers sslFiles jsonDecode client =
          .ok (l.filterMap (inspectAndProcess sslFiles jsonDecode client))) := by
  constructor
  · intro e
    cases hres : client.listResult with
    | error e' => simp [getExistingContainers, hres]
    | ok l => simp [getExistingContainers, hres]
  · intro l hl
    simp only [getExistingContainers, hl]
    rw [gec_loop_eq_filterMap (inspectAndProcess sslFiles jsonDecode client) l []]
    simp

/-- Witness for `inventory_error_containment`: one healthy container and one
whose inspection fails — the call succeeds with just the healthy one. -/
theorem inventory_error_containment_witness :
    getExistingContainers [] (fun _ => none)
      ⟨.ok [⟨"id1", ["/web1"]⟩, ⟨"id2", ["/web2"]⟩],
        fun i => if i == "id1"
          then .ok ⟨["VIRTUAL_HOST=a.com"], ["80/tcp"], "10.1.1.1"⟩
          else .error "inspect failed"⟩ =
      .ok [⟨"web1", "a.com", "10.1.1.1", "80", "", []⟩] := by
  have h := (inventory_error_containment [] (fun _ => none)
    ⟨.ok [⟨"id1", ["/web1"]⟩, ⟨"id2", ["/web2"]⟩],
      fun i => if i == "id1"
        then .ok ⟨["VIRTUAL_HOST=a.com"], ["80/tcp"], "10.1.1.1"⟩
        else .error "inspect failed"⟩).2
    [⟨"id1", ["/web1"]⟩, ⟨"id2", ["/web2"]⟩] rfl
  rw [h]
  rfl

/-! ## Claim C10: changed flag is false on error returns -/

theorem writeNewFilesLoop_err_flag (f : CfWriter) :
    ∀ (ccs : List ContainerConfig) (d : Dir) (acc : Bool) (e : Err),
      (writeNewFilesLoop f ccs d acc).2.2 = some e →
      (writeNewFilesLoop f ccs d acc).1 = false := by
  intro ccs
  induction ccs with
  | nil =>
      intro d acc e h
      simp [writeNewFilesLoop] at h
  | cons cc rest ih =>
      intro d acc e h
      rcases hf : f d cc with ⟨w, d', err⟩
      cases err with
      | some e' => simp [writeNewFilesLoop, hf]
      | none =>
          simp only [writeNewFilesLoop, hf] at h ⊢
          exact ih d' (acc || w) e h

theorem removeOldFilesLoop_err_flag (removeOk : String → Bool)
    (ccs : List ContainerConfig) :
    ∀ (snapshot : List (String × String)) (d : Dir) (acc : Bool) (e : Err),
      (removeOldFilesLoop removeOk ccs snapshot d acc).2.2 = some e →
      (removeOldFilesLoop removeOk ccs snapshot d acc).1 = false := by
  intro snapshot
  induction snapshot with
  | nil =>
      intro d acc e h
      simp [removeOldFilesLoop] at h
  | cons f rest ih =>
      intro d acc e h
      rcases hr : removeIfRedundant removeOk d f.1 ccs with ⟨r, d', err⟩
      cases err with
      | some e' => simp [removeOldFilesLoop, hr]
      | none =>
          simp only [removeOldFilesLoop, hr] at h ⊢
          exact ih d' (acc || r) e h

/-- Claim C10: whenever `writeNewFiles` or `removeOldFiles` returns an
error, the changed flag it returns is `false`, regardless of how many files
were written or deleted before the failing step. -/
theorem changed_false_on_error (mkdirOk : Bool) (f : CfWriter)
    (readDirOk : Bool) (removeOk : String → Bool) (d : Dir)
    (ccs : List ContainerConfig) :
    (∀ e, (writeNewFiles mkdirOk f d ccs).2.2 = some e →
        (writeNewFiles mkdirOk f d ccs).1 = false) ∧
    (∀ e, (removeOldFiles readDirOk removeOk d ccs).2.2 = some e →
        (removeOldFiles readDirOk removeOk d ccs).1 = false) := by
  constructor
  · intro e h
    cases mkdirOk with
    | false => simp [writeNewFiles]
    | true =>
        simp only [writeNewFiles, if_true] at h ⊢
        exact writeNewFilesLoop_err_flag f ccs d false e h
  · intro e h
    cases readDirOk with
    | false => simp [removeOldFiles]
    | true =>
        simp only [removeOldFiles, if_true] at h ⊢
        exact removeOldFilesLoop_err_flag removeOk ccs d d false e h

/-- Witness for `changed_false_on_error`: a writer that writes a file and
then errors still makes the pass report `changed = false`, as does a
directory-listing failure. -/
theorem changed_false_on_error_witness :
    (writeNewFiles true
      (fun d _ => (true, d, some "disk full")) []
      [⟨"web1", "a.com", "10.0.0.2", "8080", "", []⟩]).1 = false ∧
    (removeOldFiles false (fun _ => true) [("stale", "x")] []).1 = false :=
  ⟨(changed_false_on_error true (fun d _ => (true, d, some "disk full"))
      false (fun _ => true) []
      [⟨"web1", "a.com", "10.0.0.2", "8080", "", []⟩]).1 "disk full" rfl,
   (changed_false_on_error true (fun d _ => (true, d, some "disk full"))
      false (fun _ => true) [("stale", "x")] []).2 "readdir failed" rfl⟩

/-! ## All-I/O-succeeds instantiation and writer normal form -/

/-- The oracle for an OS call that always succeeds. -/
def allOk : String → Bool := fun _ => true

/-- Normal form shared by both writers: an optional content per container,
then `writeIfChanged` under the container's name. -/
def contentWriter (content? : ContainerConfig → Option String)
    (readOk writeOk : String → Bool) : CfWriter :=
  fun d cc =>
    match content? cc with
    | none => (false, d, none)
    | some c => writeIfChanged readOk writeOk d cc.Name c

/-- The htpasswd writer's content function: `none` when the container has no
entries. -/
def htContent (cc : ContainerConfig) : Option String :=
  if cc.HtpasswdEntries.length == 0 then none
  else some (String.intercalate "\n" cc.HtpasswdEntries)

theorem writeNewConfigFile_eq_contentWriter (render : ContainerConfig → Option String)
    (readOk writeOk : String → Bool) :
    writeNewConfigFile true render readOk writeOk =
      contentWriter render readOk writeOk := by
  funext d cc
  cases h : render cc <;> simp [writeNewConfigFile, contentWriter, h]

theorem writeNewHtpasswdFile_eq_contentWriter (readOk writeOk : String → Bool) :
    writeNewHtpasswdFile readOk writeOk = contentWriter htContent readOk writeOk := by
  funext d cc
  by_cases h : cc.HtpasswdEntries.length = 0 <;>
    simp [writeNewHtpasswdFile, contentWriter, htContent, h]

theorem writeIfChanged_allOk (d : Dir) (n c : String) :
    writeIfChanged allOk allOk d n c =
      if d.get n = some c then (false, d, none)
      else (true, d.set n c, none) := by
  unfold writeIfChanged allOk
  cases h : d.get n with
  | none => simp
  | some rc =>
      by_cases hc : c = rc
      · simp [hc]
      · have hrc : ¬rc = c := fun he => hc he.symm
        simp [hc, hrc]

theorem contentWriter_allOk_none (content? : ContainerConfig → Option String)
    (d : Dir) (cc : ContainerConfig) (hc : content? cc = none) :
    contentWriter content? allOk allOk d cc = (false, d, none) := by
  simp [contentWriter, hc]

theorem contentWriter_allOk_same (content? : ContainerConfig → Option String)
    (d : Dir) (cc : ContainerConfig) (c : String) (hc : content? cc = some c)
    (hg : d.get cc.Name = some c) :
    contentWriter content? allOk allOk d cc = (false, d, none) := by
  simp [contentWriter, hc, writeIfChanged_allOk, hg]

theorem contentWriter_allOk_diff (content? : ContainerConfig → Option String)
    (d : Dir) (cc : ContainerConfig) (c : String) (hc : content? cc = some c)
    (hg : d.get cc.Name ≠ some c) :
    contentWriter content? allOk allOk d cc =
      (true, d.set cc.Name c, none) := by
  simp [contentWriter, hc, writeIfChanged_allOk, hg]

theorem contentWriterLoop_err (content? : ContainerConfig → Option String) :
    ∀ (ccs : List ContainerConfig) (d : Dir) (acc : Bool),
      (writeNewFilesLoop (contentWriter content? allOk allOk) ccs d acc).2.2 =
        none := by
  intro ccs
  induction ccs with
  | nil => intro d acc; rfl
  | cons cc rest ih =>
      intro d acc
      simp only [writeNewFilesLoop]
      cases hc : content? cc with
      | none =>
          rw [contentWriter_allOk_none content? d cc hc]
          exact ih d (acc || false)
      | some c =>
          by_cases hg : d.get cc.Name = some c
          · rw [contentWriter_allOk_same content? d cc c hc hg]
            exact ih d (acc || false)
          · rw [contentWriter_allOk_diff content? d cc c hc hg]
            exact ih (d.set cc.Name c) (acc || true)

theorem find?_name_of_mem_nodup (ccs : List ContainerConfig)
    (hnod : (ccs.map ContainerConfig.Name).Nodup) (cc : ContainerConfig)
    (hmem : cc ∈ ccs) :
    ccs.find? (fun cc' => cc'.Name == cc.Name) = some cc := by
  induction ccs with
  | nil => cases hmem
  | cons hd rest ih =>
      have hnod' : (rest.map ContainerConfig.Name).Nodup :=
        (List.nodup_cons.mp hnod).2
      have hnotmem : hd.Name ∉ rest.map ContainerConfig.Name :=
        (List.nodup_cons.mp hnod).1
      rcases List.mem_cons.mp hmem with heq | hrest
      · subst heq
        simp [List.find?_cons]
      · by_cases hn : hd.Name = cc.Name
        · exfalso
          apply hnotmem
          rw [hn]
          exact List.mem_map_of_mem ContainerConfig.Name hrest
        · rw [List.find?_cons]
          have : (hd.Name == cc.Name) = false := by simp [hn]
          rw [this]
          exact ih hnod' hrest

theorem contentWriterLoop_get (content? : ContainerConfig → Option String) :
    ∀ (ccs : List ContainerConfig),
      (ccs.map ContainerConfig.Name).Nodup →
      ∀ (d : Dir) (acc : Bool) (n : String),
        ((writeNewFilesLoop (contentWriter content? allOk allOk) ccs
            d acc).2.1).get n =
          match ccs.find? (fun cc => cc.Name == n) with
          | some cc =>
              match content? cc with
              | some c => some c
              | none => d.get n
          | none => d.get n := by
  intro ccs
  induction ccs with
  | nil => intro _ d acc n; rfl
  | cons cc rest ih =>
      intro hnod d acc n
      have hnod' : (rest.map ContainerConfig.Name).Nodup :=
        (List.nodup_cons.mp hnod).2
      have hnotmem : cc.Name ∉ rest.map ContainerConfig.Name :=
        (List.nodup_cons.mp hnod).1
      simp only [writeNewFilesLoop]
      by_cases hn : cc.Name = n
      · subst hn
        have hfind : rest.find? (fun cc' => cc'.Name == cc.Name) = none := by
          rw [List.find?_eq_none]
          intro x hx
          simp only [beq_iff_eq]
          intro hEq
          exact hnotmem (hEq ▸ List.mem_map_of_mem ContainerConfig.Name hx)
        cases hc : content? cc with
        | none =>
            rw [contentWriter_allOk_none content? d cc hc]
            rw [ih hnod' d (acc || false) cc.Name, hfind]
            simp [List.find?_cons, hc]
        | some c =>
            by_cases hg : d.get cc.Name = some c
            · rw [contentWriter_allOk_same content? d cc c hc hg]
              rw [ih hnod' d (acc || false) cc.Name, hfind]
              simp [List.find?_cons, hc, hg]
            · rw [contentWriter_allOk_diff content? d cc c hc hg]
              rw [ih hnod' (d.set cc.Name c) (acc || true) cc.Name, hfind]
              simp [List.find?_cons, hc, Dir.get_set_same]
      · have hbeq : (cc.Name == n) = false := by simp [hn]
        cases hc : content? cc with
        | none =>
            rw [contentWriter_allOk_none content? d cc hc]
            rw [ih hnod' d (acc || false) n]
            simp [List.find?_cons, hbeq]
        | some c =>
            by_cases hg : d.get cc.Name = some c
            · rw [contentWriter_allOk_same content? d cc c hc hg]
              rw [ih hnod' d (acc || false) n]
              simp [List.find?_cons, hbeq]
            · rw [contentWriter_allOk_diff content? d cc c hc hg]
              rw [ih hnod' (d.set cc.Name c) (acc || true) n]
              rw [Dir.get_set_other d (Ne.symm hn) c]
              simp [List.find?_cons, hbeq]

theorem Dir.get_eq_none_of_not_any (d : Dir) (n : String)
    (h : d.any (fun p => p.1 == n) = false) : d.get n = none := by
  have hall := List.any_eq_false.mp h
  have : d.find? (fun p => p.1 == n) = none :=
    List.find?_eq_none.mpr hall
  simp [Dir.get, this]

theorem removeLoop_err (ccs : List ContainerConfig) :
    ∀ (snapshot : List (String × String)) (g : Dir) (acc : Bool),
      (removeOldFilesLoop allOk ccs snapshot g acc).2.2 = none := by
  intro snapshot
  induction snapshot with
  | nil => intro g acc; rfl
  | cons f rest ih =>
      intro g acc
      simp only [removeOldFilesLoop]
      cases hmatch : ccs.any (fun rc => f.1 == rc.Name) with
      | true =>
          have hstep : removeIfRedundant allOk g f.1 ccs = (false, g, none) := by
            simp [removeIfRedundant, hmatch]
          rw [hstep]
          exact ih g (acc || false)
      | false =>
          have hstep : removeIfRedundant allOk g f.1 ccs =
              (true, g.removeFile f.1, none) := by
            simp [removeIfRedundant, hmatch, allOk]
          rw [hstep]
          exact ih (g.removeFile f.1) (acc || true)

theorem removeLoop_get (ccs : List ContainerConfig) :
    ∀ (snapshot : List (String × String)) (g : Dir) (acc : Bool) (n : String),
      ((removeOldFilesLoop allOk ccs snapshot g acc).2.1).get n =
        if ccs.any (fun cc => n == cc.Name) then g.get n
        else if snapshot.any (fun p => p.1 == n) then none
        else g.get n := by
  intro snapshot
  induction snapshot with
  | nil =>
      intro g acc n
      simp [removeOldFilesLoop]
  | cons f rest ih =>
      intro g acc n
      simp only [removeOldFilesLoop]
      cases hmatch : ccs.any (fun rc => f.1 == rc.Name) with
      | true =>
          have hstep : removeIfRedundant allOk g f.1 ccs = (false, g, none) := by
            simp [removeIfRedundant, hmatch]
          rw [hstep, ih g (acc || false) n]
          by_cases hfn : f.1 = n
          · have hccs : ccs.any (fun cc => n == cc.Name) = true := by
              rw [← hfn]; exact hmatch
            simp [hccs]
          · have hb : (f.1 == n) = false := by simp [hfn]
            simp only [List.any_cons, hb, Bool.false_or]
      | false =>
          have hstep : removeIfRedundant allOk g f.1 ccs =
              (true, g.removeFile f.1, none) := by
            simp [removeIfRedundant, hmatch, allOk]
          rw [hstep, ih (g.removeFile f.1) (acc || true) n]
          by_cases hfn : f.1 = n
          · subst hfn
            simp [hmatch, List.any_cons, Dir.get_removeFile_same]
          · have hne : n ≠ f.1 := Ne.symm hfn
            rw [Dir.get_removeFile_other g hne]
            have hb : (f.1 == n) = false := by simp [hfn]
            simp only [List.any_cons, hb, Bool.false_or]

theorem contentWriterLoop_noop (content? : ContainerConfig → Option String) :
    ∀ (ccs : List ContainerConfig) (d : Dir),
      (∀ cc ∈ ccs, ∀ c, content? cc = some c → d.get cc.Name = some c) →
      ∀ acc, writeNewFilesLoop (contentWriter content? allOk allOk) ccs d acc =
        (acc, d, none) := by
  intro ccs
  induction ccs with
  | nil => intro d _ acc; rfl
  | cons cc rest ih =>
      intro d h acc
      simp only [writeNewFilesLoop]
      cases hc : content? cc with
      | none =>
          rw [contentWriter_allOk_none content? d cc hc]
          have := ih d
            (fun cc' h' c hc' => h cc' (List.mem_cons_of_mem cc h') c hc')
            (acc || false)
          simpa using this
      | some c =>
          have hg : d.get cc.Name = some c :=
            h cc (List.mem_cons_self cc rest) c hc
          rw [contentWriter_allOk_same content? d cc c hc hg]
          have := ih d
            (fun cc' h' c' hc' => h cc' (List.mem_cons_of_mem cc h') c' hc')
            (acc || false)
          simpa using this

theorem removeLoop_noop (ccs : List ContainerConfig) :
    ∀ (snapshot : List (String × String)) (d : Dir),
      (∀ p ∈ snapshot, ccs.any (fun rc => p.1 == rc.Name) = true) →
      ∀ acc, removeOldFilesLoop allOk ccs snapshot d acc = (acc, d, none) := by
  intro snapshot
  induction snapshot with
  | nil => intro d _ acc; rfl
  | cons f rest ih =>
      intro d h acc
      simp only [removeOldFilesLoop]
      have hmatch : ccs.any (fun rc => f.1 == rc.Name) = true :=
        h f (List.mem_cons_self f rest)
      have hstep : removeIfRedundant allOk d f.1 ccs = (false, d, none) := by
        simp [removeIfRedundant, hmatch]
      rw [hstep]
      have := ih d (fun p hp => h p (List.mem_cons_of_mem f hp)) (acc || false)
      simpa using this

theorem removeLoop_result_matches (ccs : List ContainerConfig) (d : Dir)
    (p : String × String)
    (hp : p ∈ (removeOldFilesLoop allOk ccs d d false).2.1) :
    ccs.any (fun rc => p.1 == rc.Name) = true := by
  cases hA : ccs.any (fun rc => p.1 == rc.Name) with
  | true => rfl
  | false =>
      exfalso
      have hsome := Dir.get_isSome_of_mem _ p hp
      rw [removeLoop_get ccs d d false p.1, hA] at hsome
      simp only [Bool.false_eq_true, if_false] at hsome
      cases hd : d.any (fun q => q.1 == p.1) with
      | true => rw [hd] at hsome; simp at hsome
      | false =>
          rw [hd] at hsome
          simp only [Bool.false_eq_true, if_false] at hsome
          rw [Dir.get_eq_none_of_not_any d p.1 hd] at hsome
          simp at hsome

/-- The oracle set for a cycle in which every OS call succeeds, the template
parses, and the reload command exits 0 with quiet output. -/
def allOkOracles (render : ContainerConfig → Option String) : CycleOracles :=
  ⟨true, render, allOk, allOk, true, true, allOk,
    allOk, allOk, true, true, allOk, ⟨0, ""⟩⟩

/-- One cycle of `configureAndReload`, expressed from the four step results
when none of them errors. -/
theorem configureAndReload_steps (o : CycleOracles) (st : NginxState)
    (ccs : List ContainerConfig) (c1 c2 c3 c4 : Bool) (cd hd cd' hd' : Dir)
    (h1 : writeNewFiles o.cfgMkdirOk (cfgWriter o) st.configDir ccs =
      (c1, cd, none))
    (h2 : writeNewFiles o.htMkdirOk (htWriter o) st.htpasswdDir ccs =
      (c2, hd, none))
    (h3 : removeOldFiles o.cfgReadDirOk o.cfgRemoveOk cd ccs = (c3, cd', none))
    (h4 : removeOldFiles o.htReadDirOk o.htRemoveOk hd ccs = (c4, hd', none)) :
    configureAndReload o st ccs =
      (⟨cd', hd'⟩, c1 || c2 || c3 || c4,
        if c1 || c2 || c3 || c4 then reloadNginxConfiguration o.reloadResult
        else none) := by
  simp only [configureAndReload, h1, h2, h3, h4]
  by_cases hreq : (c1 || c2 || c3 || c4) = true
  · simp [hreq]
  · simp [hreq]

/-! ## Claim C2: reload gating -/

/-- Claim C2: in a cycle of `configureAndReload` whose four synchronization
steps all complete without error, the reload trigger is invoked iff at least
one step reported `changed = true`; when all four report `false` the reload
branch is not taken. -/
theorem reload_gating (o : CycleOracles) (st : NginxState)
    (ccs : List ContainerConfig) (c1 c2 c3 c4 : Bool) (cd hd cd' hd' : Dir)
    (h1 : writeNewFiles o.cfgMkdirOk (cfgWriter o) st.configDir ccs =
      (c1, cd, none))
    (h2 : writeNewFiles o.htMkdirOk (htWriter o) st.htpasswdDir ccs =
      (c2, hd, none))
    (h3 : removeOldFiles o.cfgReadDirOk o.cfgRemoveOk cd ccs = (c3, cd', none))
    (h4 : removeOldFiles o.htReadDirOk o.htRemoveOk hd ccs = (c4, hd', none)) :
    (configureAndReload o st ccs).2.1 = (c1 || c2 || c3 || c4) := by
  rw [configureAndReload_steps o st ccs c1 c2 c3 c4 cd hd cd' hd' h1 h2 h3 h4]

/-- Witness for `reload_gating`: a cycle that creates one new file invokes
the reload; its flag equals the step disjunction `true`. -/
theorem reload_gating_witness :
    (configureAndReload (allOkOracles (fun _ => some "conf")) ⟨[], []⟩
      [⟨"web1", "a.com", "10.0.0.2", "8080", "", []⟩]).2.1 =
      (true || false || false || false) :=
  reload_gating (allOkOracles (fun _ => some "conf")) ⟨[], []⟩
    [⟨"web1", "a.com", "10.0.0.2", "8080", "", []⟩]
    true false false false [("web1", "conf")] [] [("web1", "conf")] []
    rfl rfl rfl rfl

/-! ## Claim C4: garbage-collection correctness -/

/-- Claim C4: `removeOldFiles` deletes exactly the files whose name matches
no current endpoint — a file matching some endpoint's name is never deleted —
and an error-free sync over artifacts `{a, b, c}` with endpoints `{b, d}`
leaves the directory holding exactly `{b, d}`, `b` byte-identical. -/
theorem garbage_collection (d : Dir) (ccs : List ContainerConfig) :
    (∀ n, ((removeOldFiles true allOk d ccs).2.1).get n =
        if ccs.any (fun cc => n == cc.Name) then d.get n else none) ∧
    (removeOldFiles true allOk
        ((writeNewFiles true
            (writeNewConfigFile true (fun cc => some ("conf-" ++ cc.Name))
              allOk allOk)
            [("a", "conf-old-a"), ("b", "conf-b"), ("c", "conf-c")]
            [⟨"b", "b.com", "10.0.0.5", "80", "", []⟩,
             ⟨"d", "d.com", "10.0.0.6", "80", "", []⟩]).2.1)
        [⟨"b", "b.com", "10.0.0.5", "80", "", []⟩,
         ⟨"d", "d.com", "10.0.0.6", "80", "", []⟩]).2.1 =
      [("d", "conf-d"), ("b", "conf-b")] := by
  constructor
  · intro n
    have hunf : removeOldFiles true allOk d ccs =
        removeOldFilesLoop allOk ccs d d false := rfl
    rw [hunf, removeLoop_get ccs d d false n]
    cases hA : ccs.any (fun cc => n == cc.Name) with
    | true => simp
    | false =>
        simp only [Bool.false_eq_true, if_false]
        cases hd2 : d.any (fun p => p.1 == n) with
        | true => simp
        | false => simp [Dir.get_eq_none_of_not_any d n hd2]
  · decide

/-! ## Claim C9: stale credentials artifact persistence -/

/-- Claim C9: an endpoint with no credential entries whose name matches an
existing htpasswd file leaves that file byte-identical across a full
synchronization pass — the writer writes nothing for it and the garbage
collector keys deletion on the endpoint name only. -/
theorem stale_credentials_persist (d : Dir) (ccs : List ContainerConfig)
    (cc : ContainerConfig) (content : String)
    (hmem : cc ∈ ccs) (hempty : cc.HtpasswdEntries = [])
    (hnod : (ccs.map ContainerConfig.Name).Nodup)
    (hfile : d.get cc.Name = some content) :
    ((removeOldFiles true allOk
        ((writeNewFiles true (writeNewHtpasswdFile allOk allOk) d ccs).2.1)
        ccs).2.1).get cc.Name = some content := by
  have hwunf : writeNewFiles true (writeNewHtpasswdFile allOk allOk) d ccs =
      writeNewFilesLoop (contentWriter htContent allOk allOk) ccs d false := by
    rw [writeNewHtpasswdFile_eq_contentWriter]
    rfl
  have hw : ((writeNewFiles true (writeNewHtpasswdFile allOk allOk)
      d ccs).2.1).get cc.Name = some content := by
    rw [hwunf, contentWriterLoop_get htContent ccs hnod d false cc.Name,
      find?_name_of_mem_nodup ccs hnod cc hmem]
    have hcn : htContent cc = none := by simp [htContent, hempty]
    simp [hcn, hfile]
  have hrunf : removeOldFiles true allOk
      ((writeNewFiles true (writeNewHtpasswdFile allOk allOk) d ccs).2.1) ccs =
      removeOldFilesLoop allOk ccs
        ((writeNewFiles true (writeNewHtpasswdFile allOk allOk) d ccs).2.1)
        ((writeNewFiles true (writeNewHtpasswdFile allOk allOk) d ccs).2.1)
        false := rfl
  rw [hrunf, removeLoop_get]
  have hany : ccs.any (fun cc' => cc.Name == cc'.Name) = true :=
    List.any_eq_true.mpr ⟨cc, hmem, by simp⟩
  rw [hany]
  simp [hw]

/-- Witness for `stale_credentials_persist`: an endpoint `auth1` with no
entries and a pre-existing htpasswd file keeps its old bytes. -/
theorem stale_credentials_persist_witness :
    ((removeOldFiles true allOk
        ((writeNewFiles true (writeNewHtpasswdFile allOk allOk)
          [("auth1", "alice:h1")]
          [⟨"auth1", "a.com", "10.0.0.7", "80", "", []⟩]).2.1)
        [⟨"auth1", "a.com", "10.0.0.7", "80", "", []⟩]).2.1).get "auth1" =
      some "alice:h1" :=
  stale_credentials_persist [("auth1", "alice:h1")]
    [⟨"auth1", "a.com", "10.0.0.7", "80", "", []⟩]
    ⟨"auth1", "a.com", "10.0.0.7", "80", "", []⟩ "alice:h1"
    (by decide) rfl (by decide) rfl

/-! ## Claim C1: idempotence of a reconciliation pass -/

/-- Claim C1: with unique endpoint names (the stated inventory invariant)
and every OS call succeeding, a first reconciliation pass that completes
without error makes the second pass with the same endpoints a no-op: the
directories are untouched, no write or removal happens, every step reports
`changed = false`, and the reload branch is not taken. -/
theorem sync_idempotent (render : ContainerConfig → Option String)
    (st : NginxState) (ccs : List ContainerConfig)
    (hnod : (ccs.map ContainerConfig.Name).Nodup)
    (hok : (configureAndReload (allOkOracles render) st ccs).2.2 = none) :
    configureAndReload (allOkOracles render)
        (configureAndReload (allOkOracles render) st ccs).1 ccs =
      ((configureAndReload (allOkOracles render) st ccs).1, false, none) := by
  have hcw : cfgWriter (allOkOracles render) =
      contentWriter render allOk allOk :=
    writeNewConfigFile_eq_contentWriter render allOk allOk
  have hhw : htWriter (allOkOracles render) =
      contentWriter htContent allOk allOk :=
    writeNewHtpasswdFile_eq_contentWriter allOk allOk
  -- pass 1, config directory: write then remove
  rcases e1 : writeNewFilesLoop (contentWriter render allOk allOk) ccs
      st.configDir false with ⟨c1, cd1, er1⟩
  have her1 : er1 = none := by
    have h := contentWriterLoop_err render ccs st.configDir false
    rw [e1] at h
    exact h
  subst her1
  rcases e3 : removeOldFilesLoop allOk ccs cd1 cd1 false with ⟨c3, cd2, er3⟩
  have her3 : er3 = none := by
    have h := removeLoop_err ccs cd1 cd1 false
    rw [e3] at h
    exact h
  subst her3
  -- pass 1, htpasswd directory: write then remove
  rcases e2 : writeNewFilesLoop (contentWriter htContent allOk allOk) ccs
      st.htpasswdDir false with ⟨c2, hd1, er2⟩
  have her2 : er2 = none := by
    have h := contentWriterLoop_err htContent ccs st.htpasswdDir false
    rw [e2] at h
    exact h
  subst her2
  rcases e4 : removeOldFilesLoop allOk ccs hd1 hd1 false with ⟨c4, hd2, er4⟩
  have her4 : er4 = none := by
    have h := removeLoop_err ccs hd1 hd1 false
    rw [e4] at h
    exact h
  subst her4
  -- the four step equations in writeNewFiles/removeOldFiles form
  have h1 : writeNewFiles (allOkOracles render).cfgMkdirOk
      (cfgWriter (allOkOracles render)) st.configDir ccs = (c1, cd1, none) := by
    rw [hcw]
    exact e1
  have h2 : writeNewFiles (allOkOracles render).htMkdirOk
      (htWriter (allOkOracles render)) st.htpasswdDir ccs = (c2, hd1, none) := by
    rw [hhw]
    exact e2
  have h3 : removeOldFiles (allOkOracles render).cfgReadDirOk
      (allOkOracles render).cfgRemoveOk cd1 ccs = (c3, cd2, none) := e3
  have h4 : removeOldFiles (allOkOracles render).htReadDirOk
      (allOkOracles render).htRemoveOk hd1 ccs = (c4, hd2, none) := e4
  have hreload : reloadNginxConfiguration (allOkOracles render).reloadResult =
      none := rfl
  have hpass1 := configureAndReload_steps (allOkOracles render) st ccs
    c1 c2 c3 c4 cd1 hd1 cd2 hd2 h1 h2 h3 h4
  have hpass1x : configureAndReload (allOkOracles render) st ccs =
      (⟨cd2, hd2⟩, c1 || c2 || c3 || c4, none) := by
    rw [hpass1, hreload]
    by_cases hq : (c1 || c2 || c3 || c4) = true <;> simp [hq]
  -- contents of the case-1 result directories under each endpoint's name
  have hcd2get : ∀ cc' ∈ ccs, ∀ c, render cc' = some c →
      cd2.get cc'.Name = some c := by
    intro cc' hcc c hc
    have hcd2 : cd2 = (removeOldFilesLoop allOk ccs cd1 cd1 false).2.1 := by
      rw [e3]
    have hcd1 : cd1 = (writeNewFilesLoop (contentWriter render allOk allOk)
        ccs st.configDir false).2.1 := by
      rw [e1]
    rw [hcd2, removeLoop_get ccs cd1 cd1 false cc'.Name]
    have hany : ccs.any (fun x => cc'.Name == x.Name) = true :=
      List.any_eq_true.mpr ⟨cc', hcc, by simp⟩
    rw [hany]
    rw [if_pos rfl]
    rw [hcd1, contentWriterLoop_get render ccs hnod st.configDir false cc'.Name,
      find?_name_of_mem_nodup ccs hnod cc' hcc]
    simp [hc]
  have hhd2get : ∀ cc' ∈ ccs, ∀ c, htContent cc' = some c →
      hd2.get cc'.Name = some c := by
    intro cc' hcc c hc
    have hhd2 : hd2 = (removeOldFilesLoop allOk ccs hd1 hd1 false).2.1 := by
      rw [e4]
    have hhd1 : hd1 = (writeNewFilesLoop (contentWriter htContent allOk allOk)
        ccs st.htpasswdDir false).2.1 := by
      rw [e2]
    rw [hhd2, removeLoop_get ccs hd1 hd1 false cc'.Name]
    have hany : ccs.any (fun x => cc'.Name == x.Name) = true :=
      List.any_eq_true.mpr ⟨cc', hcc, by simp⟩
    rw [hany]
    rw [if_pos rfl]
    rw [hhd1, contentWriterLoop_get htContent ccs hnod st.htpasswdDir false
      cc'.Name, find?_name_of_mem_nodup ccs hnod cc' hcc]
    simp [hc]
  -- second pass is a no-op on both directories
  have hW2c : writeNewFilesLoop (contentWriter render allOk allOk) ccs cd2
      false = (false, cd2, none) :=
    contentWriterLoop_noop render ccs cd2 hcd2get false
  have hW2h : writeNewFilesLoop (contentWriter htContent allOk allOk) ccs hd2
      false = (false, hd2, none) :=
    contentWriterLoop_noop htContent ccs hd2 hhd2get false
  have hR2c : removeOldFilesLoop allOk ccs cd2 cd2 false =
      (false, cd2, none) := by
    apply removeLoop_noop
    intro p hp
    have hcd2 : cd2 = (removeOldFilesLoop allOk ccs cd1 cd1 false).2.1 := by
      rw [e3]
    rw [hcd2] at hp
    exact removeLoop_result_matches ccs cd1 p hp
  have hR2h : removeOldFilesLoop allOk ccs hd2 hd2 false =
      (false, hd2, none) := by
    apply removeLoop_noop
    intro p hp
    have hhd2 : hd2 = (removeOldFilesLoop allOk ccs hd1 hd1 false).2.1 := by
      rw [e4]
    rw [hhd2] at hp
    exact removeLoop_result_matches ccs hd1 p hp
  have h1' : writeNewFiles (allOkOracles render).cfgMkdirOk
      (cfgWriter (allOkOracles render)) cd2 ccs = (false, cd2, none) := by
    rw [hcw]
    exact hW2c
  have h2' : writeNewFiles (allOkOracles render).htMkdirOk
      (htWriter (allOkOracles render)) hd2 ccs = (false, hd2, none) := by
    rw [hhw]
    exact hW2h
  have h3' : removeOldFiles (allOkOracles render).cfgReadDirOk
      (allOkOracles render).cfgRemoveOk cd2 ccs = (false, cd2, none) := hR2c
  have h4' : removeOldFiles (allOkOracles render).htReadDirOk
      (allOkOracles render).htRemoveOk hd2 ccs = (false, hd2, none) := hR2h
  have hpass2 := configureAndReload_steps (allOkOracles render) ⟨cd2, hd2⟩ ccs
    false false false false cd2 hd2 cd2 hd2 h1' h2' h3' h4'
  rw [hpass1x]
  simpa using hpass2

/-- Witness for `sync_idempotent`: one endpoint, a stale file on disk — the
first pass writes and garbage-collects, the second is a verbatim no-op. -/
theorem sync_idempotent_witness :
    configureAndReload (allOkOracles (fun cc => some ("conf-" ++ cc.Name)))
        (configureAndReload (allOkOracles (fun cc => some ("conf-" ++ cc.Name)))
          ⟨[("stale", "x")], []⟩
          [⟨"web1", "a.com", "10.0.0.2", "8080", "", []⟩]).1
        [⟨"web1", "a.com", "10.0.0.2", "8080", "", []⟩] =
      ((configureAndReload (allOkOracles (fun cc => some ("conf-" ++ cc.Name)))
          ⟨[("stale", "x")], []⟩
          [⟨"web1", "a.com", "10.0.0.2", "8080", "", []⟩]).1, false, none) :=
  sync_idempotent (fun cc => some ("conf-" ++ cc.Name)) ⟨[("stale", "x")], []⟩
    [⟨"web1", "a.com", "10.0.0.2", "8080", "", []⟩] (by decide) rfl

/-- Witness for `reload_success_iff`: the classification instantiated at an
exit-0 run whose output carries the failure marker. -/
theorem reload_success_iff_witness :
    reloadNginxConfiguration ⟨0, "nginx: configuration reload failed"⟩ = none ↔
      (0 : Nat) = 0 ∧
        goContains "nginx: configuration reload failed" "fail" = false :=
  reload_success_iff ⟨0, "nginx: configuration reload failed"⟩
